import Mathlib

/-!
Verification of the export-surface resolution engine of the packem bundler.

The development embeds, as executable Lean functions:

* `extractExportFilenames` (`src/packages/packem/src/utils/extract-export-filenames.ts`),
  the export-map parser turning a manifest `exports` field into output descriptors;
* the module-format inference helpers it calls (modelled from the spec, since
  `src/utils/infer-export-type.ts` is not part of the provided sources);
* the legacy node10 `typesVersions` synthesizer and the CommonJS/ESM interop
  shim generator (both modelled from the spec, their plugin sources being
  absent), validated against the expectations of
  `__tests__/intigration/typescript.test.ts`;
* the memoized implicit-external diagnostic of
  `src/rollup/get-rollup-options.ts`;
* the end-of-build `logErrors` / `build` / `createContext` logic of
  `src/create-bundler.ts`.

Theorems about these definitions settle the frozen claims C1–C10.
-/

namespace Packem

/-- Module format of an emitted JavaScript artifact (`"cjs" | "esm"`). -/
inductive ExportType where
  | cjs
  | esm
  deriving DecidableEq, Repr

/-- Provenance tag of an output descriptor (`"exports" | "main" | "types" | "module" | "bin"`). -/
inductive DescriptorKey where
  | exports
  | main
  | types
  | module
  | bin
  deriving DecidableEq, Repr

/-- The `OutputDescriptor` record of `src/utils/extract-export-filenames.ts`.
`isExecutable` is omitted: `extractExportFilenames` never sets it. -/
structure OutputDescriptor where
  file : String
  key : DescriptorKey
  subKey : Option String := none
  type : Option ExportType := none
  deriving DecidableEq, Repr

deriving instance DecidableEq for Except

/-- The raw shape of a manifest `exports` field: a bare path string, an array of
fallback values, or an object keyed by subpaths / condition names. -/
inductive ExportsField where
  | str (path : String)
  | arr (items : List ExportsField)
  | obj (entries : List (String × ExportsField))
  deriving Repr

/-- The `declaration` build option: `true | false | "compatible" | "node16"`. -/
inductive DeclarationMode where
  | on
  | off
  | compatible
  | node16
  deriving DecidableEq, Repr

/-- Test that `suffix` is a suffix of `s` (kernel-reducible stand-in for
`String.endsWith`). -/
def strEndsWith (s suffix : String) : Bool :=
  suffix.data.isSuffixOf s.data

/-- Test that `p` is a prefix of `s` (kernel-reducible stand-in for
`String.startsWith`). -/
def strStartsWith (s p : String) : Bool :=
  p.data.isPrefixOf s.data

/-- Test that `sub` occurs inside `s` (kernel-reducible stand-in for a substring
test). -/
def strContains (s sub : String) : Bool :=
  decide (sub.data <:+: s.data)

/-- Drop the first `n` characters of `s`. -/
def strDrop (s : String) (n : Nat) : String :=
  ⟨s.data.drop n⟩

/-- Drop the last `n` characters of `s`. -/
def strDropRight (s : String) (n : Nat) : String :=
  ⟨s.data.take (s.data.length - n)⟩

/-- The JS default module format implied by the manifest's top-level `type`
field: `type === "module" ? "esm" : "cjs"`. -/
def packageDefaultType (ty : Option String) : ExportType :=
  if ty = some "module" then .esm else .cjs

/-- Modelled from the spec: `src/utils/infer-export-type.ts` is not under
`src/` (only its import in `extract-export-filenames.ts` is).  Per §4.2:
`.mjs`/`.mts` ⇒ esm; `.cjs`/`.cts` ⇒ cjs; anything else (e.g. `.js`/`.ts`) is
ambiguous ⇒ undefined. -/
def inferExportTypeFromFileName (filename : String) : Option ExportType :=
  if strEndsWith filename ".mjs" || strEndsWith filename ".mts" then some .esm
  else if strEndsWith filename ".cjs" || strEndsWith filename ".cts" then some .cjs
  else none

/-- The nearest enclosing `import`/`require` condition in the accumulated
conditions path (conditions are appended at the tail, so later entries are
nearer). -/
def nearestFormatCondition : List String → Option ExportType
  | [] => none
  | c :: rest =>
    match nearestFormatCondition rest with
    | some t => some t
    | none =>
      if c = "import" then some .esm
      else if c = "require" then some .cjs
      else none

/-- Modelled from the spec: `src/utils/infer-export-type.ts` is not under
`src/`.  Per §4.2, precedence is: explicit condition name (`import` ⇒ esm,
`require` ⇒ cjs), then file-extension inference, then — for conditions such as
`default` with an ambiguous extension — the nearest enclosing
`import`/`require` condition in the accumulated path, then the package's
declared top-level `type` (absent counting as commonjs). -/
def inferExportType (condition : String) (previousConditions : List String) (filename : String) (ty : Option String) : Option ExportType :=
  if condition = "import" then some .esm
  else if condition = "require" then some .cjs
  else
    match inferExportTypeFromFileName filename with
    | some t => some t
    | none =>
      match nearestFormatCondition previousConditions with
      | some t => some t
      | none => some (packageDefaultType ty)

/-- The known condition names recorded as `subKey`
(`extract-export-filenames.ts`, line 50). -/
def knownSubKeys : List String :=
  ["browser", "default", "deno", "development", "import", "node", "node-addons", "production", "require", "types"]

/-- The configuration-error message thrown by the bare-string branch of
`extractExportFilenames` (line 31); an absent manifest `type` prints as
`"undefined"` under JS string interpolation. -/
def extensionMismatchMessage (file : String) (ty : Option String) : String :=
  "Exported file \"" ++ file ++ "\" has an extension that does not match the package.json type \"" ++ ty.getD "undefined" ++ "\"."

/-- The descriptor built for a string leaf met inside the object branch of
`extractExportFilenames` (lines 46–56). -/
def conditionDescriptor (condition : String) (conditions : List String) (file : String) (ty : Option String) : OutputDescriptor :=
  { file := file
    key := .exports
    subKey := if knownSubKeys.contains condition then some condition else none
    type := inferExportType condition conditions file ty }

mutual

/-- Shallow embedding of `extractExportFilenames`
(`src/utils/extract-export-filenames.ts`).  A JS array reaches the
`Object.entries` branch with its decimal indices as keys, embedded here by
`extractExportItems`; the falsy guard `!packageExports` accepts the empty
string, embedded in the `.str` case. -/
def extractExportFilenames (pe : ExportsField) (ty : Option String) (decl : DeclarationMode) (conditions : List String) : Except String (List OutputDescriptor) :=
  match pe with
  | .str s =>
    if s = "" then .ok []
    else
      let fileType := packageDefaultType ty
      match inferExportTypeFromFileName s with
      | some inferred =>
        if inferred ≠ fileType then .error (extensionMismatchMessage s ty)
        else .ok [{ file := s, key := .exports, type := some inferred }]
      | none => .ok [{ file := s, key := .exports, type := some fileType }]
  | .obj es => extractExportEntries es ty decl conditions
  | .arr items => extractExportItems 0 items ty decl conditions

/-- The `Object.entries(...).filter(...).flatMap(...)` loop of
`extractExportFilenames` over the entries of an object-shaped `exports`
value. -/
def extractExportEntries (es : List (String × ExportsField)) (ty : Option String) (decl : DeclarationMode) (conditions : List String) : Except String (List OutputDescriptor) :=
  match es with
  | [] => .ok []
  | (condition, packageExport) :: rest =>
    if strEndsWith condition ".json" then extractExportEntries rest ty decl conditions
    else do
      let head ←
        if condition = "types" && decl = DeclarationMode.off then pure []
        else
          match packageExport with
          | .str f => pure [conditionDescriptor condition conditions f ty]
          | pe => extractExportFilenames pe ty decl (conditions ++ [condition])
      let tail ← extractExportEntries rest ty decl conditions
      pure (head ++ tail)

/-- The same entry loop for an array-shaped `exports` value, whose
`Object.entries` keys are the decimal indices `"0"`, `"1"`, …. -/
def extractExportItems (i : Nat) (items : List ExportsField) (ty : Option String) (decl : DeclarationMode) (conditions : List String) : Except String (List OutputDescriptor) :=
  match items with
  | [] => .ok []
  | packageExport :: rest =>
    let condition := toString i
    if strEndsWith condition ".json" then extractExportItems (i + 1) rest ty decl conditions
    else do
      let head ←
        if condition = "types" && decl = DeclarationMode.off then pure []
        else
          match packageExport with
          | .str f => pure [conditionDescriptor condition conditions f ty]
          | pe => extractExportFilenames pe ty decl (conditions ++ [condition])
      let tail ← extractExportItems (i + 1) rest ty decl conditions
      pure (head ++ tail)

end

/-- Top-level entry point: the manifest `exports` field may be absent
(`undefined`), in which case no descriptors are produced and no error is
raised. -/
def extractExportFilenamesOpt (pe : Option ExportsField) (ty : Option String) (decl : DeclarationMode) : Except String (List OutputDescriptor) :=
  match pe with
  | none => .ok []
  | some pe => extractExportFilenames pe ty decl []

/-!
Legacy Compatibility Synthesizer (node10 `typesVersions`).

Modelled from the spec: the node10-compatibility rollup plugin
(`src/rollup/plugins/node10-compatibility-plugin`) is not under `src/`; only
its type import in `src/types.ts` and its integration tests
(`__tests__/intigration/typescript.test.ts`, "node10 compatibility") are.
The model below follows §4.3 of the spec and reproduces the tables the tests
expect.
-/

/-- Modelled from the spec: the unified node10 declaration path for an exported
file — the compiled or conditional-declaration extension is replaced by the
compatible `.d.ts` form (`./dist/a.mjs`, `./dist/a.d.mts`, `./dist/a.d.cts`
all map to `./dist/a.d.ts`). -/
def toDeclarationPath (file : String) : String :=
  if strEndsWith file ".d.ts" then file
  else if strEndsWith file ".d.mts" then strDropRight file 6 ++ ".d.ts"
  else if strEndsWith file ".d.cts" then strDropRight file 6 ++ ".d.ts"
  else if strEndsWith file ".mjs" then strDropRight file 4 ++ ".d.ts"
  else if strEndsWith file ".cjs" then strDropRight file 4 ++ ".d.ts"
  else if strEndsWith file ".mts" then strDropRight file 4 ++ ".d.ts"
  else if strEndsWith file ".cts" then strDropRight file 4 ++ ".d.ts"
  else if strEndsWith file ".js" then strDropRight file 3 ++ ".d.ts"
  else if strEndsWith file ".ts" then strDropRight file 3 ++ ".d.ts"
  else file

/-- Subpath-key normalization of the node10 table (§4.3): the root export `"."`
keeps key `"."`; a leading `"./"` is stripped, so `"./deep"` gives `"deep"` and
the wildcard subpath `"./*"` gives `"*"`. -/
def normalizeSubpathKey (subpath : String) : String :=
  if subpath = "." then "."
  else if strStartsWith subpath "./" then strDrop subpath 2
  else subpath

mutual

/-- All leaf file paths reachable in an `exports` value, in manifest order,
skipping `.json` subpaths. -/
def collectLeafFiles : ExportsField → List String
  | .str f => [f]
  | .arr items => collectLeafFilesList items
  | .obj es => collectLeafFilesEntries es

/-- Leaf collection over the members of an array value. -/
def collectLeafFilesList : List ExportsField → List String
  | [] => []
  | x :: xs => collectLeafFiles x ++ collectLeafFilesList xs

/-- Leaf collection over the entries of an object value. -/
def collectLeafFilesEntries : List (String × ExportsField) → List String
  | [] => []
  | (k, v) :: rest =>
    (if strEndsWith k ".json" then [] else collectLeafFiles v) ++ collectLeafFilesEntries rest

end

/-- The ordered `(normalized subpath key, declaration path)` pairs contributed
by an `exports` field: object entries contribute under their normalized
subpath key, an array-form `exports` collapses every member under the single
wildcard key `"*"`, and a bare string is the root export `"."`. -/
def node10Pairs : ExportsField → List (String × String)
  | .str f => [(".", toDeclarationPath f)]
  | .arr items => (collectLeafFilesList items).map (fun f => ("*", toDeclarationPath f))
  | .obj es =>
    (es.filter (fun e => !strEndsWith e.1 ".json")).flatMap
      (fun e => (collectLeafFiles e.2).map (fun f => (normalizeSubpathKey e.1, toDeclarationPath f)))

/-- Append `x` to `xs` unless it is already present (first-seen order,
deduplication by exact equality). -/
def dedupInsert (xs : List String) (x : String) : List String :=
  if xs.contains x then xs else xs ++ [x]

/-- Deduplicate a list by exact equality, keeping the first occurrence of each
element and preserving encounter order. -/
def dedupKeepFirst (xs : List String) : List String :=
  xs.foldl dedupInsert []

/-- Add one declaration path to the table entry of `key`, merging into the
existing entry (deduplicated, first-seen order) or appending a new entry. -/
def tableAddPath : List (String × List String) → String → String → List (String × List String)
  | [], key, path => [(key, [path])]
  | (k, ps) :: rest, key, path =>
    if k = key then (k, dedupInsert ps path) :: rest
    else (k, ps) :: tableAddPath rest key path

/-- Modelled from the spec: the node10 compatibility table — the mapping from
normalized subpath key to an ordered, deduplicated list of declaration paths
that the synthesizer places under the sole `"*"` wildcard of
`typesVersions`. -/
def node10CompatibilityTable (e : ExportsField) : List (String × List String) :=
  (node10Pairs e).foldl (fun table kv => tableAddPath table kv.1 kv.2) []

/-- The raw (not yet deduplicated) declaration paths contributed to table key
`k`, in encounter order. -/
def rawDeclarationPaths (e : ExportsField) (k : String) : List String :=
  ((node10Pairs e).filter (fun kv => kv.1 = k)).map (fun kv => kv.2)

/-!
CommonJS/ESM Interop Shim Generator.

Modelled from the spec: the cjs-interop rollup plugin
(`src/rollup/plugins/cjs-interop`, imported by `get-rollup-options.ts`) is not
under `src/`.  The model follows §4.5 of the spec and reproduces the emitted
shapes asserted by the "cjsInterop" integration tests.
-/

/-- The three-way export-shape classification of §4.5, plus the valid empty
case: derived from presence of a default export and of named exports. -/
inductive ExportShape where
  | empty
  | defaultOnly
  | namedOnly
  | mixed
  deriving DecidableEq, Repr

/-- Classify a module's export surface from its default-export presence and
named-export list. -/
def classifyExports (hasDefault : Bool) (named : List String) : ExportShape :=
  match hasDefault, named with
  | false, [] => .empty
  | true, [] => .defaultOnly
  | false, _ :: _ => .namedOnly
  | true, _ :: _ => .mixed

/-- Join strings with a separator (kernel-reducible stand-in for
`String.intercalate`). -/
def joinWith (sep : String) : List String → String
  | [] => ""
  | [x] => x
  | x :: xs => x ++ sep ++ joinWith sep xs

/-- Modelled from the spec (§4.5): the CommonJS footer emitted when
`cjsInterop` is enabled, as a function of the module's export shape — a mixed
module assigns `module.exports = <default>` and then attaches each named
export as a property of that same object. -/
def cjsInteropFooter (defaultName : Option String) (named : List String) : List String :=
  match classifyExports defaultName.isSome named, defaultName with
  | .defaultOnly, some d => ["module.exports = " ++ d ++ ";"]
  | .mixed, some d =>
    ("module.exports = " ++ d ++ ";") :: named.map (fun n => "module.exports." ++ n ++ " = " ++ n ++ ";")
  | _, _ => []

/-- Modelled from the spec (§4.5): the export statements of the CommonJS
declaration file (`.d.cts`) under `cjsInterop` — a mixed module needs a named
re-export statement plus an `export = <default>` declaration. -/
def ctsInteropDeclaration (defaultName : Option String) (named : List String) : List String :=
  match classifyExports defaultName.isSome named, defaultName with
  | .defaultOnly, some d => ["export = " ++ d ++ ";"]
  | .mixed, some d =>
    ["export \x7b " ++ joinWith ", " named ++ " \x7d;", "export = " ++ d ++ ";"]
  | .namedOnly, _ => ["export \x7b " ++ joinWith ", " named ++ " \x7d;"]
  | _, _ => []

/-- Modelled from the spec (§4.5): the export statement of the sibling ESM
declaration file (`.d.mts`) — a plain export list, with no special casing,
since ESM natively expresses a default next to named exports. -/
def mtsInteropDeclaration (defaultName : Option String) (named : List String) : List String :=
  match defaultName with
  | some d => ["export \x7b " ++ joinWith ", " ((d ++ " as default") :: named) ++ " \x7d;"]
  | none =>
    match named with
    | [] => []
    | _ => ["export \x7b " ++ joinWith ", " named ++ " \x7d;"]

/-!
Implicit-external diagnostic (`src/rollup/get-rollup-options.ts`, lines
173–236): the module-level map `calledImplicitExternals` memoizes, per import
id, whether the informational "Inlined implicit external" diagnostic has been
emitted.
-/

/-- Split a character list at `/` separators (kernel-reducible stand-in for
`String.split`). -/
def splitSlash : List Char → List (List Char)
  | [] => [[]]
  | c :: rest =>
    match splitSlash rest with
    | [] => [[c]]
    | hd :: tl => if c = '/' then [] :: hd :: tl else (c :: hd) :: tl

/-- Modelled from the spec: the `get-package-name` util is not under `src/`;
standard npm semantics — a scoped id keeps its first two `/`-segments, any
other id its first segment. -/
def getPackageName (id : String) : String :=
  let parts := (splitSlash id.data).map (fun cs => String.mk cs)
  if strStartsWith id "@" then joinWith "/" (parts.take 2)
  else parts.headD ""

/-- The configuration consulted by the `external` callback of
`baseRollupOptions`: the resolved aliases, the `externals` option, the package
name, and the tsconfig-path alias patterns (abstracted as predicates, standing
for the regex tests of `getConfigAlias`). -/
structure ExternalContext where
  aliases : List (String × String)
  externals : List String
  pkgName : Option String
  configAliasPatterns : List (String → Bool)

/-- The alias substitution at the top of the `external` callback (lines
177–197): the first alias key that prefixes the id rewrites it. -/
def findAlias (aliases : List (String × String)) (id : String) : Option String :=
  match aliases with
  | [] => none
  | (key, replacement) :: rest =>
    if strStartsWith id key then some (replacement ++ strDrop id key.length)
    else findAlias rest id

/-- The import id after alias substitution. -/
def resolveAliasId (ctx : ExternalContext) (id : String) : String :=
  (findAlias ctx.aliases id).getD id

/-- Line 201: the id is explicitly external when its package name or the id
itself is listed in the `externals` option. -/
def isExplicitExternal (ctx : ExternalContext) (id : String) : Bool :=
  ctx.externals.contains (getPackageName id) || ctx.externals.contains id

/-- Line 207: relative ids, absolute ids, ids containing a `src/` segment and
self-references are local, never reported. -/
def isLocalId (ctx : ExternalContext) (id : String) : Bool :=
  strStartsWith id "." || strStartsWith id "/" || strContains id "src/" || strContains id "src\\" ||
    (match ctx.pkgName with
     | some n => n ≠ "" && strStartsWith id n
     | none => false)

/-- Lines 211–223: ids matching a tsconfig-path alias pattern are resolved
internally, never reported. -/
def matchesConfigAlias (ctx : ExternalContext) (id : String) : Bool :=
  ctx.configAliasPatterns.any (fun test => test id)

/-- An id (post alias substitution) is classified as an implicit external when
it falls through every early return of the `external` callback and reaches the
memoized diagnostic at lines 226–233. -/
def classifiedImplicitExternal (ctx : ExternalContext) (id : String) : Bool :=
  !isExplicitExternal ctx id && !isLocalId ctx id && !matchesConfigAlias ctx id

/-- The memoization map `calledImplicitExternals` (as the list of its keys)
together with the informational diagnostics emitted so far (as the list of
reported ids, in emission order). -/
structure ExternalState where
  memo : List String
  diagnostics : List String
  deriving DecidableEq, Repr

/-- One invocation of the `external` callback (lines 191–235): resolve the
alias, take the early returns, and otherwise emit the informational diagnostic
unless the id is memoized, then memoize it. -/
def externalStep (ctx : ExternalContext) (st : ExternalState) (rawId : String) : Bool × ExternalState :=
  let id := resolveAliasId ctx rawId
  if isExplicitExternal ctx id then (true, st)
  else if isLocalId ctx id then (false, st)
  else if matchesConfigAlias ctx id then (false, st)
  else
    (false,
      { memo := dedupInsert st.memo id
        diagnostics := if st.memo.contains id then st.diagnostics else st.diagnostics ++ [id] })

/-- Run the `external` callback over every import id resolved during a build,
threading the module-level memoization state. -/
def externalRunFrom (ctx : ExternalContext) (st : ExternalState) (ids : List String) : ExternalState :=
  ids.foldl (fun st id => (externalStep ctx st id).2) st

/-- A whole build run starts from the empty module-level map. -/
def externalRun (ctx : ExternalContext) (ids : List String) : ExternalState :=
  externalRunFrom ctx ⟨[], []⟩ ids

/-!
End-of-build severity policy (`src/create-bundler.ts`) and the
`createContext` configuration checks.
-/

/-- One observable step at the end of a packem build run. -/
inductive BuildEvent where
  | bundlesCompiled
  | sizeReported
  | dependenciesValidated
  | packageValidated
  | warningsPrinted (warnings : List String)
  | errorPrinted (message : String)
  | exited (code : Nat)
  deriving DecidableEq, Repr

/-- Embedding of `logErrors` (`create-bundler.ts`, lines 36–50): when the
accumulated warning set is non-empty it is printed in full, and only then, if
`failOnWarn` is set, an error is logged and the process exits with code 1. -/
def logErrors (warnings : List String) (failOnWarn : Bool) : List BuildEvent :=
  if warnings.isEmpty then []
  else
    [.warningsPrinted warnings] ++
      (if failOnWarn then
        [.errorPrinted "Exiting with code (1). You can change this behavior by setting `failOnWarn: false`.",
         .exited 1]
      else [])

/-- Embedding of `build` (`create-bundler.ts`, lines 606–646): compilation,
size reporting and both validators all run to completion before `logErrors` is
reached; warnings only terminate the process there. -/
def buildTrace (warnings : List String) (failOnWarn : Bool) : List BuildEvent :=
  [.bundlesCompiled, .sizeReported, .dependenciesValidated, .packageValidated] ++
    logErrors warnings failOnWarn

/-- The build options consulted by the `createContext` checks. -/
structure ResolvedOptions where
  emitESM : Bool
  emitCJS : Bool
  declaration : DeclarationMode
  failOnWarn : Bool
  deriving DecidableEq, Repr

/-- Embedding of the option checks of `createContext` (`create-bundler.ts`,
lines 553–559), run after option resolution and before any compilation. -/
def createContext (options : ResolvedOptions) (hasTsconfig : Bool) : Except String ResolvedOptions :=
  if !options.emitESM && !options.emitCJS then
    .error "Both emitESM and emitCJS are disabled. At least one of them must be enabled."
  else if options.declaration ≠ DeclarationMode.off ∧ hasTsconfig = false then
    .error "Cannot build declaration files without a tsconfig.json"
  else .ok options

/-- The build-mode path of `createBundler` (`create-bundler.ts`, lines
740–774): the context is created first, and a failing `createContext` aborts
the run before `build` produces any event. -/
def bundlerRun (options : ResolvedOptions) (hasTsconfig : Bool) (warnings : List String) : Except String (List BuildEvent) :=
  match createContext options hasTsconfig with
  | .error e => .error e
  | .ok options => .ok (buildTrace warnings options.failOnWarn)

set_option maxHeartbeats 1000000

/-! Helper lemmas. -/

theorem inferExportTypeFromFileName_empty : inferExportTypeFromFileName "" = none := by
  decide

theorem except_bind_ok {α β ε : Type} (a : α) (f : α → Except ε β) : (Except.ok a >>= f) = f a := rfl

theorem except_bind_error {α β ε : Type} (e : ε) (f : α → Except ε β) : ((Except.error e : Except ε α) >>= f) = Except.error e := rfl

theorem except_map_ok {α β ε : Type} (f : α → β) (a : α) : (f <$> (Except.ok a : Except ε α)) = Except.ok (f a) := rfl

theorem except_map_error {α β ε : Type} (f : α → β) (e : ε) : (f <$> (Except.error e : Except ε α)) = Except.error e := rfl

theorem except_pure_bind {α β ε : Type} (a : α) (f : α → Except ε β) : ((pure a : Except ε α) >>= f) = f a := rfl

theorem dedupInsert_eq_ite (xs : List String) (x : String) :
    dedupInsert xs x = if x ∈ xs then xs else xs ++ [x] := by
  simp [dedupInsert, List.elem_iff]

theorem mem_dedupInsert (y x : String) (xs : List String) :
    y ∈ dedupInsert xs x ↔ y ∈ xs ∨ y = x := by
  rw [dedupInsert_eq_ite]
  by_cases h : x ∈ xs
  · simp only [if_pos h]
    constructor
    · exact Or.inl
    · rintro (hy | rfl)
      · exact hy
      · exact h
  · simp [if_neg h]

theorem nodup_dedupInsert (xs : List String) (x : String) (h : xs.Nodup) :
    (dedupInsert xs x).Nodup := by
  rw [dedupInsert_eq_ite]
  by_cases hx : x ∈ xs
  · simpa [hx] using h
  · simp [hx, List.nodup_append, h]

theorem nodup_foldl_dedupInsert (ys : List String) :
    ∀ acc : List String, acc.Nodup → (ys.foldl dedupInsert acc).Nodup := by
  induction ys with
  | nil => exact fun acc h => h
  | cons y ys ih => exact fun acc h => ih _ (nodup_dedupInsert _ _ h)

theorem mem_foldl_dedupInsert (x : String) (ys : List String) :
    ∀ acc : List String, x ∈ ys.foldl dedupInsert acc ↔ x ∈ acc ∨ x ∈ ys := by
  induction ys with
  | nil => simp
  | cons y ys ih =>
    intro acc
    rw [List.foldl_cons, ih, mem_dedupInsert]
    simp [or_assoc]

theorem nodup_dedupKeepFirst (ys : List String) : (dedupKeepFirst ys).Nodup :=
  nodup_foldl_dedupInsert ys [] List.nodup_nil

theorem mem_dedupKeepFirst (x : String) (ys : List String) :
    x ∈ dedupKeepFirst ys ↔ x ∈ ys := by
  rw [dedupKeepFirst, mem_foldl_dedupInsert]
  simp

theorem lookup_cons {β : Type} (k k₁ : String) (v : β) (rest : List (String × β)) :
    List.lookup k ((k₁, v) :: rest) = if k = k₁ then some v else List.lookup k rest := by
  by_cases h : k = k₁
  · subst h
    simp [List.lookup]
  · rw [List.lookup, show (k == k₁) = false from beq_eq_false_iff_ne.2 h, if_neg h]

theorem lookup_tableAddPath (t : List (String × List String)) (key path k : String) :
    (tableAddPath t key path).lookup k
      = if k = key then some (dedupInsert ((t.lookup k).getD []) path) else t.lookup k := by
  induction t with
  | nil =>
    rw [tableAddPath, lookup_cons]
    by_cases h : k = key
    · simp only [if_pos h]
      rfl
    · simp only [if_neg h]
  | cons hd rest ih =>
    obtain ⟨k₁, ps⟩ := hd
    rw [tableAddPath]
    by_cases h1 : k₁ = key
    · rw [if_pos h1]
      subst h1
      by_cases h : k = k₁
      · rw [lookup_cons, if_pos h, if_pos h, lookup_cons, if_pos h]
        rfl
      · rw [lookup_cons, if_neg h, if_neg h, lookup_cons, if_neg h]
    · rw [if_neg h1]
      by_cases h : k = k₁
      · have hk : ¬ k = key := by rw [h]; exact h1
        rw [lookup_cons, if_pos h, lookup_cons, if_pos h, if_neg hk]
      · rw [lookup_cons, if_neg h, ih, lookup_cons, if_neg h]

theorem lookup_foldl_tableAddPath (pairs : List (String × String)) :
    ∀ (t : List (String × List String)) (k : String),
      ((pairs.foldl (fun table kv => tableAddPath table kv.1 kv.2) t).lookup k)
        = if (t.lookup k) = none ∧ (pairs.filter (fun kv => kv.1 = k)) = []
          then none
          else some (((pairs.filter (fun kv => kv.1 = k)).map (fun kv => kv.2)).foldl dedupInsert ((t.lookup k).getD [])) := by
  induction pairs with
  | nil =>
    intro t k
    rcases h : t.lookup k with _ | v
    · simp [h]
    · simp [h]
  | cons hd rest ih =>
    obtain ⟨k₁, p⟩ := hd
    intro t k
    by_cases h : k₁ = k
    · subst h
      have hf : List.filter (fun kv => decide (kv.1 = k₁)) ((k₁, p) :: rest)
          = (k₁, p) :: List.filter (fun kv => decide (kv.1 = k₁)) rest := by
        simp [List.filter_cons]
      rw [List.foldl_cons, ih, lookup_tableAddPath, if_pos rfl, hf]
      simp [List.filter_cons]
    · have hf : List.filter (fun kv => decide (kv.1 = k)) ((k₁, p) :: rest)
          = List.filter (fun kv => decide (kv.1 = k)) rest := by
        simp [List.filter_cons, h]
      rw [hf, List.foldl_cons, ih, lookup_tableAddPath,
        if_neg (fun hk : k = k₁ => h hk.symm)]

theorem node10_lookup_characterization (e : ExportsField) (k : String) :
    (node10CompatibilityTable e).lookup k
      = if (node10Pairs e).filter (fun kv => kv.1 = k) = [] then none
        else some (dedupKeepFirst (rawDeclarationPaths e k)) := by
  have hnil : (List.lookup k ([] : List (String × List String))) = none := rfl
  rw [node10CompatibilityTable, lookup_foldl_tableAddPath, hnil]
  by_cases hX : (node10Pairs e).filter (fun kv => kv.1 = k) = []
  · rw [if_pos ⟨rfl, hX⟩, if_pos hX]
  · rw [if_neg (fun hc => hX hc.2), if_neg hX]
    rfl

theorem collectLeafFilesList_map_str (paths : List String) :
    collectLeafFilesList (paths.map ExportsField.str) = paths := by
  induction paths with
  | nil => rfl
  | cons p ps ih =>
    simp only [List.map_cons, collectLeafFilesList, collectLeafFiles, List.singleton_append]
    rw [ih]

theorem foldl_tableAddPath_const_key (vals : List String) (k : String) :
    ∀ ps : List String,
      vals.foldl (fun t v => tableAddPath t k v) [(k, ps)] = [(k, vals.foldl dedupInsert ps)] := by
  induction vals with
  | nil => intro ps; rfl
  | cons v vs ih =>
    intro ps
    rw [List.foldl_cons, List.foldl_cons]
    have h1 : tableAddPath [(k, ps)] k v = [(k, dedupInsert ps v)] := by
      rw [tableAddPath, if_pos rfl]
    rw [h1, ih]

theorem externalRunFrom_invariant (ctx : ExternalContext) (ids : List String) :
    ∀ st : ExternalState, st.memo = st.diagnostics →
      (externalRunFrom ctx st ids).memo = (externalRunFrom ctx st ids).diagnostics
      ∧ (externalRunFrom ctx st ids).diagnostics
        = ((ids.map (resolveAliasId ctx)).filter
            (fun id => classifiedImplicitExternal ctx id)).foldl dedupInsert st.diagnostics := by
  induction ids with
  | nil => exact fun st h => ⟨h, rfl⟩
  | cons rid ids ih =>
    rintro ⟨memo, diag⟩ h
    dsimp only at h
    subst h
    rw [externalRunFrom, List.foldl_cons, ← externalRunFrom, List.map_cons]
    by_cases h1 : isExplicitExternal ctx (resolveAliasId ctx rid)
    · have hstep : (externalStep ctx ⟨memo, memo⟩ rid).2 = ⟨memo, memo⟩ := by
        simp [externalStep, h1]
      have hcl : classifiedImplicitExternal ctx (resolveAliasId ctx rid) = false := by
        simp [classifiedImplicitExternal, h1]
      have hfilter : (resolveAliasId ctx rid :: List.map (resolveAliasId ctx) ids).filter
          (fun id => classifiedImplicitExternal ctx id)
          = (List.map (resolveAliasId ctx) ids).filter (fun id => classifiedImplicitExternal ctx id) := by
        simp [List.filter_cons, hcl]
      rw [hstep, hfilter]
      exact ih ⟨memo, memo⟩ rfl
    · by_cases h2 : isLocalId ctx (resolveAliasId ctx rid)
      · have hstep : (externalStep ctx ⟨memo, memo⟩ rid).2 = ⟨memo, memo⟩ := by
          simp [externalStep, h1, h2]
        have hcl : classifiedImplicitExternal ctx (resolveAliasId ctx rid) = false := by
          simp [classifiedImplicitExternal, h2]
        have hfilter : (resolveAliasId ctx rid :: List.map (resolveAliasId ctx) ids).filter
            (fun id => classifiedImplicitExternal ctx id)
            = (List.map (resolveAliasId ctx) ids).filter (fun id => classifiedImplicitExternal ctx id) := by
          simp [List.filter_cons, hcl]
        rw [hstep, hfilter]
        exact ih ⟨memo, memo⟩ rfl
      · by_cases h3 : matchesConfigAlias ctx (resolveAliasId ctx rid)
        · have hstep : (externalStep ctx ⟨memo, memo⟩ rid).2 = ⟨memo, memo⟩ := by
            simp [externalStep, h1, h2, h3]
          have hcl : classifiedImplicitExternal ctx (resolveAliasId ctx rid) = false := by
            simp [classifiedImplicitExternal, h3]
          have hfilter : (resolveAliasId ctx rid :: List.map (resolveAliasId ctx) ids).filter
              (fun id => classifiedImplicitExternal ctx id)
              = (List.map (resolveAliasId ctx) ids).filter (fun id => classifiedImplicitExternal ctx id) := by
            simp [List.filter_cons, hcl]
          rw [hstep, hfilter]
          exact ih ⟨memo, memo⟩ rfl
        · have hstep : (externalStep ctx ⟨memo, memo⟩ rid).2
              = ⟨dedupInsert memo (resolveAliasId ctx rid), dedupInsert memo (resolveAliasId ctx rid)⟩ := by
            simp [externalStep, h1, h2, h3, dedupInsert]
          have hcl : classifiedImplicitExternal ctx (resolveAliasId ctx rid) = true := by
            simp [classifiedImplicitExternal, h1, h2, h3]
          have hfilter : (resolveAliasId ctx rid :: List.map (resolveAliasId ctx) ids).filter
              (fun id => classifiedImplicitExternal ctx id)
              = resolveAliasId ctx rid
                :: (List.map (resolveAliasId ctx) ids).filter (fun id => classifiedImplicitExternal ctx id) := by
            simp [List.filter_cons, hcl]
          rw [hstep, hfilter, List.foldl_cons]
          exact ih ⟨dedupInsert memo (resolveAliasId ctx rid), dedupInsert memo (resolveAliasId ctx rid)⟩ rfl

/-- The root subpath of the "complex exports" node10 integration test
(`typescript.test.ts`, lines 1868–1974), restricted to the entries feeding the
`"."` table row plus the filtered `./package.json` pass-through. -/
def complexRootExports : ExportsField :=
  .obj [(".", .obj [("browser", .str "./dist/index.browser.mjs"),
                    ("import", .obj [("default", .str "./dist/index.server.mjs"), ("types", .str "./dist/index.server.d.mts")]),
                    ("require", .obj [("default", .str "./dist/index.server.cjs"), ("types", .str "./dist/index.server.d.cts")])]),
        ("./package.json", .str "./package.json")]

/-- The dual-format manifest of the "node10 typesVersions field console info"
integration test (`typescript.test.ts`, lines 1614–1663). -/
def dualFormatExports : ExportsField :=
  .obj [(".", .obj [("import", .obj [("default", .str "./dist/index.mjs"), ("types", .str "./dist/index.d.mts")]),
                    ("require", .obj [("default", .str "./dist/index.cjs"), ("types", .str "./dist/index.d.cts")])]),
        ("./deep", .obj [("import", .obj [("default", .str "./dist/deep/index.mjs"), ("types", .str "./dist/deep/index.d.mts")]),
                    ("require", .obj [("default", .str "./dist/deep/index.cjs"), ("types", .str "./dist/deep/index.d.cts")])])]

/-! Validation of the spec-modelled components against the integration-test
expectations. -/

theorem node10_table_matches_console_info_test :
    node10CompatibilityTable dualFormatExports
      = [(".", ["./dist/index.d.ts"]), ("deep", ["./dist/deep/index.d.ts"])] := by
  decide

theorem node10_table_matches_complex_exports_root :
    node10CompatibilityTable complexRootExports
      = [(".", ["./dist/index.browser.d.ts", "./dist/index.server.d.ts"])] := by
  decide

theorem interop_matches_mixed_exports_test :
    cjsInteropFooter (some "test") ["test2"] = ["module.exports = test;", "module.exports.test2 = test2;"]
    ∧ ctsInteropDeclaration (some "test") ["test2"] = ["export \x7b test2 \x7d;", "export = test;"]
    ∧ mtsInteropDeclaration (some "test") ["test2"] = ["export \x7b test as default, test2 \x7d;"] := by
  refine ⟨by decide, by decide, by decide⟩

theorem extract_matches_scenario_a :
    extractExportFilenames (.str "./dist/index.cjs") (some "commonjs") .on []
      = .ok [{ file := "./dist/index.cjs", key := .exports, type := some .cjs }] := by
  decide

/-! Claims C1, C4, C5, C7, C10, C8. -/

/-- C1: a bare-string `exports` field whose extension-inferred module format
contradicts the manifest's top-level `type` makes `extractExportFilenames`
throw a configuration error whose message names the conflicting file and the
declared type; no descriptors are returned. -/
theorem bare_string_type_mismatch_throws (s : String) (ty : Option String) (decl : DeclarationMode) (conds : List String) (t : ExportType) (hinfer : inferExportTypeFromFileName s = some t) (hne : t ≠ packageDefaultType ty) :
    extractExportFilenames (.str s) ty decl conds
      = .error ("Exported file \"" ++ s ++ "\" has an extension that does not match the package.json type \"" ++ ty.getD "undefined" ++ "\".") := by
  have hs : s ≠ "" := by
    rintro rfl
    rw [inferExportTypeFromFileName_empty] at hinfer
    exact Option.noConfusion hinfer
  rw [extractExportFilenames]
  simp [hs, hinfer, hne, extensionMismatchMessage]

/-- Witness for C1 at the spec's Scenario B input
(`exports: "./dist/index.mjs"`, `type: "commonjs"`). -/
theorem bare_string_type_mismatch_throws_witness :
    inferExportTypeFromFileName "./dist/index.mjs" = some .esm
    ∧ ExportType.esm ≠ packageDefaultType (some "commonjs")
    ∧ extractExportFilenames (.str "./dist/index.mjs") (some "commonjs") .on []
        = .error ("Exported file \"" ++ "./dist/index.mjs" ++ "\" has an extension that does not match the package.json type \"" ++ (some "commonjs").getD "undefined" ++ "\".") :=
  ⟨by decide, by decide,
    bare_string_type_mismatch_throws "./dist/index.mjs" (some "commonjs") .on [] .esm (by decide) (by decide)⟩

/-- C4: a module with a default export and at least one named export is
classified as mixed; with `cjsInterop` enabled its CommonJS output assigns
`module.exports = <default>` and then attaches each named export as a
property, its `.d.cts` declaration carries a named re-export statement plus
`export = <default>`, and its `.d.mts` declaration is a plain export list. -/
theorem cjs_interop_mixed_exports (d : String) (named : List String) (h : named ≠ []) :
    classifyExports true named = .mixed
    ∧ cjsInteropFooter (some d) named
        = ("module.exports = " ++ d ++ ";") :: named.map (fun n => "module.exports." ++ n ++ " = " ++ n ++ ";")
    ∧ ctsInteropDeclaration (some d) named
        = ["export \x7b " ++ joinWith ", " named ++ " \x7d;", "export = " ++ d ++ ";"]
    ∧ mtsInteropDeclaration (some d) named
        = ["export \x7b " ++ joinWith ", " ((d ++ " as default") :: named) ++ " \x7d;"] := by
  cases named with
  | nil => exact absurd rfl h
  | cons n ns =>
    exact ⟨rfl, rfl, rfl, rfl⟩

/-- Witness for C4 at the module of the "cjsInterop … named exports with
default" integration test (`export { test2, test as default }`). -/
theorem cjs_interop_mixed_exports_witness :
    (["test2"] : List String) ≠ []
    ∧ (classifyExports true ["test2"] = .mixed
      ∧ cjsInteropFooter (some "test") ["test2"]
          = ("module.exports = " ++ "test" ++ ";") :: ["test2"].map (fun n => "module.exports." ++ n ++ " = " ++ n ++ ";")
      ∧ ctsInteropDeclaration (some "test") ["test2"]
          = ["export \x7b " ++ joinWith ", " ["test2"] ++ " \x7d;", "export = " ++ "test" ++ ";"]
      ∧ mtsInteropDeclaration (some "test") ["test2"]
          = ["export \x7b " ++ joinWith ", " (("test" ++ " as default") :: ["test2"]) ++ " \x7d;"]) :=
  ⟨by decide, cjs_interop_mixed_exports "test" ["test2"] (by decide)⟩

/-- C5: an object entry with a string leaf value produces exactly one
descriptor; a known condition name is recorded as its `subKey`, an
unrecognized condition name still surfaces the descriptor but with no
`subKey`. -/
theorem condition_string_leaf_descriptor (condition f : String) (ty : Option String) (decl : DeclarationMode) (conds : List String) (hjson : strEndsWith condition ".json" = false) (htypes : ¬(condition = "types" ∧ decl = DeclarationMode.off)) :
    extractExportFilenames (.obj [(condition, .str f)]) ty decl conds
      = .ok [{ file := f
               key := .exports
               subKey := if knownSubKeys.contains condition then some condition else none
               type := inferExportType condition conds f ty }] := by
  have hb : (decide (condition = "types") && decide (decl = DeclarationMode.off)) = false := by
    by_cases hc : condition = "types" <;> by_cases hd : decl = DeclarationMode.off <;>
      simp [hc, hd] at htypes ⊢
  rw [extractExportFilenames, extractExportEntries]
  simp [hjson, hb, extractExportEntries, conditionDescriptor]

/-- Witness for C5 covering both halves: the known condition `import` carries
`subKey := "import"`, the custom condition `react-server` surfaces with no
`subKey`. -/
theorem condition_string_leaf_descriptor_witness :
    (strEndsWith "import" ".json" = false ∧ ¬("import" = "types" ∧ DeclarationMode.on = DeclarationMode.off)
      ∧ extractExportFilenames (.obj [("import", .str "./dist/index.mjs")]) (some "commonjs") .on []
          = .ok [{ file := "./dist/index.mjs"
                   key := .exports
                   subKey := if knownSubKeys.contains "import" then some "import" else none
                   type := inferExportType "import" [] "./dist/index.mjs" (some "commonjs") }])
    ∧ (strEndsWith "react-server" ".json" = false ∧ ¬("react-server" = "types" ∧ DeclarationMode.on = DeclarationMode.off)
      ∧ extractExportFilenames (.obj [("react-server", .str "./dist/index.mjs")]) (some "module") .on []
          = .ok [{ file := "./dist/index.mjs"
                   key := .exports
                   subKey := if knownSubKeys.contains "react-server" then some "react-server" else none
                   type := inferExportType "react-server" [] "./dist/index.mjs" (some "module") }]) :=
  ⟨⟨by decide, by decide,
      condition_string_leaf_descriptor "import" "./dist/index.mjs" (some "commonjs") .on [] (by decide) (by decide)⟩,
    ⟨by decide, by decide,
      condition_string_leaf_descriptor "react-server" "./dist/index.mjs" (some "module") .on [] (by decide) (by decide)⟩⟩

/-- C7: with `failOnWarn` set and a non-empty accumulated warning set, the
build runs compilation, size reporting and both validators to completion,
prints the full warning set, and only then exits with code 1 — the exit is the
last event of the trace and occurs nowhere earlier. -/
theorem fail_on_warn_exits_at_end (ws : List String) (hws : ws ≠ []) :
    buildTrace ws true
      = [.bundlesCompiled, .sizeReported, .dependenciesValidated, .packageValidated,
         .warningsPrinted ws,
         .errorPrinted "Exiting with code (1). You can change this behavior by setting `failOnWarn: false`.",
         .exited 1]
    ∧ ∀ e ∈ (buildTrace ws true).dropLast, e ≠ BuildEvent.exited 1 := by
  have hne : ws.isEmpty = false := by
    cases ws with
    | nil => exact absurd rfl hws
    | cons w ws => rfl
  constructor
  · simp [buildTrace, logErrors, hne]
  · intro e he
    simp [buildTrace, logErrors, hne, List.dropLast] at he
    rcases he with h | h | h | h | h | h <;> simp [h]

/-- Witness for C7 with one accumulated warning. -/
theorem fail_on_warn_exits_at_end_witness :
    (["warning"] : List String) ≠ []
    ∧ (buildTrace ["warning"] true
        = [.bundlesCompiled, .sizeReported, .dependenciesValidated, .packageValidated,
           .warningsPrinted ["warning"],
           .errorPrinted "Exiting with code (1). You can change this behavior by setting `failOnWarn: false`.",
           .exited 1]
      ∧ ∀ e ∈ (buildTrace ["warning"] true).dropLast, e ≠ BuildEvent.exited 1) :=
  ⟨by decide, fail_on_warn_exits_at_end ["warning"] (by decide)⟩

/-- C10: with both `emitESM` and `emitCJS` disabled, `createContext` throws
the documented error, so the bundler run aborts before any compilation — no
build with zero JavaScript output flavors is ever attempted. -/
theorem no_output_flavor_rejected (options : ResolvedOptions) (hasTsconfig : Bool) (warnings : List String) (h1 : options.emitESM = false) (h2 : options.emitCJS = false) :
    createContext options hasTsconfig
      = .error "Both emitESM and emitCJS are disabled. At least one of them must be enabled."
    ∧ bundlerRun options hasTsconfig warnings
      = .error "Both emitESM and emitCJS are disabled. At least one of them must be enabled." := by
  have hc : createContext options hasTsconfig
      = .error "Both emitESM and emitCJS are disabled. At least one of them must be enabled." := by
    simp [createContext, h1, h2]
  exact ⟨hc, by simp [bundlerRun, hc]⟩

/-- Witness for C10 at a concrete all-disabled configuration. -/
theorem no_output_flavor_rejected_witness :
    ({ emitESM := false, emitCJS := false, declaration := .off, failOnWarn := true } : ResolvedOptions).emitESM = false
    ∧ ({ emitESM := false, emitCJS := false, declaration := .off, failOnWarn := true } : ResolvedOptions).emitCJS = false
    ∧ (createContext { emitESM := false, emitCJS := false, declaration := .off, failOnWarn := true } true
        = .error "Both emitESM and emitCJS are disabled. At least one of them must be enabled."
      ∧ bundlerRun { emitESM := false, emitCJS := false, declaration := .off, failOnWarn := true } true []
        = .error "Both emitESM and emitCJS are disabled. At least one of them must be enabled.") :=
  ⟨by decide, by decide,
    no_output_flavor_rejected { emitESM := false, emitCJS := false, declaration := .off, failOnWarn := true } true [] (by decide) (by decide)⟩

/-- C8 counterexample: the manifest `{"exports": {"import": "./dist/index.mjs"}, "type": "commonjs"}`
is accepted by the parser and yields one descriptor, but re-running the parser
on that descriptor's `file` as a bare-string exports field (same package type,
same declaration mode) throws the extension/type configuration error instead
of yielding the same descriptor set. -/
theorem reparse_not_idempotent_counterexample :
    extractExportFilenames (.obj [("import", .str "./dist/index.mjs")]) (some "commonjs") .on []
      = .ok [{ file := "./dist/index.mjs", key := .exports, subKey := some "import", type := some .esm }]
    ∧ extractExportFilenames (.str "./dist/index.mjs") (some "commonjs") .on []
      = .error "Exported file \"./dist/index.mjs\" has an extension that does not match the package.json type \"commonjs\"." :=
  ⟨by decide, by decide⟩

/-- C8 amended: for every descriptor the parser produced whose `file` is
non-empty and whose extension-inferred format does not contradict the
manifest's `type`, re-running the parser on that `file` as a bare-string
exports field yields exactly one descriptor for the same file (differing only
in provenance metadata); its `type` is the extension-inferred format, falling
back to the package default when the extension is ambiguous. -/
theorem reparse_descriptor_file (pe : ExportsField) (ty : Option String) (decl : DeclarationMode) (ds : List OutputDescriptor) (d : OutputDescriptor) (_hrun : extractExportFilenames pe ty decl [] = .ok ds) (_hmem : d ∈ ds) (hne : d.file ≠ "") (hcompat : ∀ t, inferExportTypeFromFileName d.file = some t → t = packageDefaultType ty) :
    extractExportFilenames (.str d.file) ty decl []
      = .ok [{ file := d.file
               key := .exports
               type := some ((inferExportTypeFromFileName d.file).getD (packageDefaultType ty)) }] := by
  clear _hrun _hmem
  rw [extractExportFilenames]
  cases h : inferExportTypeFromFileName d.file with
  | none => simp [hne, h]
  | some t =>
    have ht := hcompat t h
    simp [hne, h, ht]

/-- Witness for C8 (amended) at the manifest
`{"exports": {"require": "./dist/index.cjs"}, "type": "commonjs"}`. -/
theorem reparse_descriptor_file_witness :
    extractExportFilenames (.obj [("require", .str "./dist/index.cjs")]) (some "commonjs") .on []
      = .ok [{ file := "./dist/index.cjs", key := .exports, subKey := some "require", type := some .cjs }]
    ∧ ({ file := "./dist/index.cjs", key := .exports, subKey := some "require", type := some .cjs } : OutputDescriptor)
        ∈ [{ file := "./dist/index.cjs", key := .exports, subKey := some "require", type := some .cjs }]
    ∧ ({ file := "./dist/index.cjs", key := .exports, subKey := some "require", type := some .cjs } : OutputDescriptor).file ≠ ""
    ∧ extractExportFilenames (.str ({ file := "./dist/index.cjs", key := .exports, subKey := some "require", type := some .cjs } : OutputDescriptor).file) (some "commonjs") .on []
        = .ok [{ file := ({ file := "./dist/index.cjs", key := .exports, subKey := some "require", type := some .cjs } : OutputDescriptor).file
                 key := .exports
                 type := some ((inferExportTypeFromFileName ({ file := "./dist/index.cjs", key := .exports, subKey := some "require", type := some .cjs } : OutputDescriptor).file).getD (packageDefaultType (some "commonjs"))) }] :=
  ⟨by decide, by decide, by decide,
    reparse_descriptor_file (.obj [("require", .str "./dist/index.cjs")]) (some "commonjs") .on
      [{ file := "./dist/index.cjs", key := .exports, subKey := some "require", type := some .cjs }]
      { file := "./dist/index.cjs", key := .exports, subKey := some "require", type := some .cjs }
      (by decide) (by decide) (by decide)
      (by
        intro t ht
        have hc : inferExportTypeFromFileName "./dist/index.cjs" = some ExportType.cjs := by decide
        rw [hc] at ht
        injection ht with h
        subst h
        decide)⟩

/-! Claims C2, C3, C6, C9. -/

/-- C2: every list in a node10 compatibility table is the raw sequence of
declaration paths contributed to its normalized subpath key, deduplicated by
exact path equality keeping the first occurrence — so each list has no
duplicate path and preserves first-encountered order; in particular two
subpaths resolving to the identical normalized declaration path contribute it
only once to any single wildcard-key list. -/
theorem node10_table_list_dedup_first_seen (e : ExportsField) (k : String) (ps : List String) (h : (node10CompatibilityTable e).lookup k = some ps) :
    ps = dedupKeepFirst (rawDeclarationPaths e k) ∧ ps.Nodup := by
  rw [node10_lookup_characterization] at h
  by_cases hf : (node10Pairs e).filter (fun kv => kv.1 = k) = []
  · simp [hf] at h
  · rw [if_neg hf] at h
    injection h with h
    subst h
    exact ⟨rfl, nodup_dedupKeepFirst _⟩

/-- Witness for C2 at the complex-exports root subpath, whose `import`- and
`require`-qualified declaration variants both normalize to
`./dist/index.server.d.ts` and appear once. -/
theorem node10_table_list_dedup_first_seen_witness :
    (node10CompatibilityTable complexRootExports).lookup "."
      = some ["./dist/index.browser.d.ts", "./dist/index.server.d.ts"]
    ∧ ((["./dist/index.browser.d.ts", "./dist/index.server.d.ts"] : List String)
        = dedupKeepFirst (rawDeclarationPaths complexRootExports ".")
      ∧ (["./dist/index.browser.d.ts", "./dist/index.server.d.ts"] : List String).Nodup) :=
  ⟨by decide,
    node10_table_list_dedup_first_seen complexRootExports "."
      ["./dist/index.browser.d.ts", "./dist/index.server.d.ts"] (by decide)⟩

/-- C3: subpath-key normalization maps the root export `"."` to key `"."`,
`"./deep"` to `"deep"` and the wildcard subpath `"./*"` to `"*"`; and an
array-form top-level `exports` of bare path strings collapses to the single
wildcard entry `"*"` aggregating (deduplicated, in order) the declaration
paths of every array member. -/
theorem node10_key_normalization_and_array_collapse :
    normalizeSubpathKey "." = "."
    ∧ normalizeSubpathKey "./deep" = "deep"
    ∧ normalizeSubpathKey "./*" = "*"
    ∧ ∀ paths : List String, paths ≠ [] →
        node10CompatibilityTable (.arr (paths.map ExportsField.str))
          = [("*", dedupKeepFirst (paths.map toDeclarationPath))] := by
  refine ⟨by decide, by decide, by decide, ?_⟩
  intro paths h
  cases paths with
  | nil => exact absurd rfl h
  | cons p ps =>
    rw [node10CompatibilityTable, node10Pairs, collectLeafFilesList_map_str]
    rw [List.map_cons, List.map_cons, List.foldl_cons]
    have h1 : tableAddPath [] "*" (toDeclarationPath p) = [("*", [toDeclarationPath p])] := rfl
    rw [h1]
    rw [List.foldl_map, ← List.foldl_map (fun f => toDeclarationPath f) (fun t v => tableAddPath t "*" v)]
    rw [foldl_tableAddPath_const_key]
    rw [dedupKeepFirst, List.foldl_cons]
    rfl

/-- Witness for C3 at the array-exports manifest of the "node10 typesVersions
field on console on array exports" integration test. -/
theorem node10_key_normalization_and_array_collapse_witness :
    (["./dist/index.mjs", "./dist/index.cjs", "./dist/deep/index.cjs", "./dist/deep/index.mjs"] : List String) ≠ []
    ∧ node10CompatibilityTable
        (.arr (["./dist/index.mjs", "./dist/index.cjs", "./dist/deep/index.cjs", "./dist/deep/index.mjs"].map ExportsField.str))
        = [("*", dedupKeepFirst (["./dist/index.mjs", "./dist/index.cjs", "./dist/deep/index.cjs", "./dist/deep/index.mjs"].map toDeclarationPath))]
    ∧ dedupKeepFirst (["./dist/index.mjs", "./dist/index.cjs", "./dist/deep/index.cjs", "./dist/deep/index.mjs"].map toDeclarationPath)
        = ["./dist/index.d.ts", "./dist/deep/index.d.ts"] :=
  ⟨by decide,
    node10_key_normalization_and_array_collapse.2.2.2
      ["./dist/index.mjs", "./dist/index.cjs", "./dist/deep/index.cjs", "./dist/deep/index.mjs"] (by decide),
    by decide⟩

/-- C6: across a whole build run, the informational implicit-external
diagnostic for an import id is emitted exactly once when the (alias-resolved)
id is classified as an implicit external and occurs at all, and never
otherwise — emission is memoized by id, so repeats from other importing
modules are silent. -/
theorem implicit_external_diagnostic_once (ctx : ExternalContext) (ids : List String) (id : String) :
    ((externalRun ctx ids).diagnostics).count id
      = if classifiedImplicitExternal ctx id = true ∧ id ∈ ids.map (resolveAliasId ctx) then 1 else 0 := by
  obtain ⟨-, hdiag⟩ := externalRunFrom_invariant ctx ids ⟨[], []⟩ rfl
  rw [externalRun, hdiag]
  have hdk : ((ids.map (resolveAliasId ctx)).filter
      (fun i => classifiedImplicitExternal ctx i)).foldl dedupInsert ([] : List String)
      = dedupKeepFirst ((ids.map (resolveAliasId ctx)).filter
          (fun i => classifiedImplicitExternal ctx i)) := rfl
  rw [hdk]
  by_cases hc : classifiedImplicitExternal ctx id = true ∧ id ∈ ids.map (resolveAliasId ctx)
  · rw [if_pos hc]
    refine List.count_eq_one_of_mem (nodup_dedupKeepFirst _) ?_
    rw [mem_dedupKeepFirst]
    exact List.mem_filter.2 ⟨hc.2, hc.1⟩
  · rw [if_neg hc]
    refine List.count_eq_zero.2 ?_
    rw [mem_dedupKeepFirst]
    intro hmem
    obtain ⟨hm, hcl⟩ := List.mem_filter.1 hmem
    exact hc ⟨hcl, hm⟩

/-- Validation of C6's model on the spec's Scenario E: an undeclared import
hit from three different modules in the same build produces a single
diagnostic, while explicit externals and relative imports produce none. -/
theorem implicit_external_diagnostic_once_example :
    (externalRun ⟨[], ["rollup"], some "mypkg", []⟩
        ["lodash", "lodash", "rollup", "./local", "lodash"]).diagnostics = ["lodash"] := by
  decide

/-- C9: every descriptor `extractExportFilenames` returns carries provenance
`key = "exports"`, for every exports field shape, package type, declaration
mode and conditions path — the other `OutputDescriptor` keys (`main`,
`module`, `types`, `bin`) are never produced by this function. -/
theorem descriptor_key_always_exports :
    ∀ (pe : ExportsField) (ty : Option String) (decl : DeclarationMode) (conds : List String)
      (ds : List OutputDescriptor), extractExportFilenames pe ty decl conds = .ok ds →
      ∀ d ∈ ds, d.key = DescriptorKey.exports := by
  intro pe ty decl conds
  refine extractExportFilenames.induct
    (fun pe ty decl conds => ∀ ds, extractExportFilenames pe ty decl conds = .ok ds → ∀ d ∈ ds, d.key = DescriptorKey.exports)
    (fun i items ty decl conds => ∀ ds, extractExportItems i items ty decl conds = .ok ds → ∀ d ∈ ds, d.key = DescriptorKey.exports)
    (fun es ty decl conds => ∀ ds, extractExportEntries es ty decl conds = .ok ds → ∀ d ∈ ds, d.key = DescriptorKey.exports)
    ?_ ?_ ?_ ?_ ?_ ?_ ?_ ?_ ?_ ?_ ?_ ?_ ?_ ?_ ?_ ?_ pe ty decl conds
  · -- bare string accepted by the falsy guard
    intro ty decl conds ds h
    simp [extractExportFilenames] at h
    subst h
    intro d hd
    cases hd
  · -- bare string whose extension contradicts the type: error branch, never ok
    intro ty decl conds s hs fileType t hinf hne ds h
    simp [extractExportFilenames, hs, hinf, hne] at h
  · -- bare string with matching extension
    intro ty decl conds s hs fileType t hinf hne ds h
    simp [extractExportFilenames, hs, hinf, hne] at h
    intro d hd
    simp [← h] at hd
    simp [hd]
  · -- bare string with ambiguous extension
    intro ty decl conds s hs hinf ds h
    simp [extractExportFilenames, hs, hinf] at h
    intro d hd
    simp [← h] at hd
    simp [hd]
  · -- object branch
    intro ty decl conds es ih ds h
    rw [extractExportFilenames] at h
    exact ih ds h
  · -- array branch
    intro ty decl conds items ih ds h
    rw [extractExportFilenames] at h
    exact ih ds h
  · -- array items: nil
    intro i ty decl conds ds h
    simp [extractExportItems] at h
    subst h
    intro d hd
    cases hd
  · -- array items: .json key (vacuous for decimal keys, still covered)
    intro i ty decl conds packageExport rest condition hjson ih ds h
    rw [extractExportItems] at h
    simp only [hjson, if_pos] at h
    exact ih ds h
  · -- array items: types branch pruned
    intro i ty decl conds packageExport rest condition hjson htypes ih ds h
    rw [extractExportItems] at h
    simp only [if_neg hjson, if_pos htypes, except_pure_bind] at h
    rcases htail : extractExportItems (i + 1) rest ty decl conds with e | tail
    · simp [htail, except_bind_error, except_map_error] at h
    · simp [htail, except_bind_ok, except_map_ok] at h
      subst h
      intro d hd
      exact ih _ htail d hd
  · -- array items: string leaf
    intro i ty decl conds rest condition hjson htypes f ih ds h
    rw [extractExportItems] at h
    simp only [if_neg hjson, if_neg htypes, except_pure_bind] at h
    rcases htail : extractExportItems (i + 1) rest ty decl conds with e | tail
    · simp [htail, except_bind_error, except_map_error] at h
    · simp [htail, except_bind_ok, except_map_ok] at h
      subst h
      intro d hd
      rcases List.mem_cons.1 hd with rfl | hd₁
      · rfl
      · exact ih _ htail d hd₁
  · -- array items: recurse into a nested object or array
    intro i ty decl conds rest condition hjson htypes pe hpe ihrest ihpe ds h
    rw [extractExportItems] at h
    simp only [if_neg hjson, if_neg htypes] at h
    cases pe with
    | str f => exact (hpe f rfl).elim
    | arr its =>
      rcases hhead : extractExportFilenames (.arr its) ty decl (conds ++ [condition]) with e | head
      · simp [hhead, except_bind_error, except_map_error] at h
      · rcases htail : extractExportItems (i + 1) rest ty decl conds with e | tail
        · simp [hhead, htail, except_bind_ok, except_bind_error, except_map_error] at h
        · simp [hhead, htail, except_bind_ok, except_map_ok] at h
          subst h
          intro d hd
          rcases List.mem_append.1 hd with hd₁ | hd₁
          · exact ihpe _ hhead d hd₁
          · exact ihrest _ htail d hd₁
    | obj es₂ =>
      rcases hhead : extractExportFilenames (.obj es₂) ty decl (conds ++ [condition]) with e | head
      · simp [hhead, except_bind_error, except_map_error] at h
      · rcases htail : extractExportItems (i + 1) rest ty decl conds with e | tail
        · simp [hhead, htail, except_bind_ok, except_bind_error, except_map_error] at h
        · simp [hhead, htail, except_bind_ok, except_map_ok] at h
          subst h
          intro d hd
          rcases List.mem_append.1 hd with hd₁ | hd₁
          · exact ihpe _ hhead d hd₁
          · exact ihrest _ htail d hd₁
  · -- object entries: nil
    intro ty decl conds ds h
    simp [extractExportEntries] at h
    subst h
    intro d hd
    cases hd
  · -- object entries: .json subpath filtered out
    intro ty decl conds condition packageExport rest hjson ih ds h
    rw [extractExportEntries] at h
    simp only [hjson, if_pos] at h
    exact ih ds h
  · -- object entries: types branch pruned
    intro ty decl conds condition packageExport rest hjson htypes ih ds h
    rw [extractExportEntries] at h
    simp only [if_neg hjson, if_pos htypes, except_pure_bind] at h
    rcases htail : extractExportEntries rest ty decl conds with e | tail
    · simp [htail, except_bind_error, except_map_error] at h
    · simp [htail, except_bind_ok, except_map_ok] at h
      subst h
      intro d hd
      exact ih _ htail d hd
  · -- object entries: string leaf
    intro ty decl conds condition rest hjson htypes f ih ds h
    rw [extractExportEntries] at h
    simp only [if_neg hjson, if_neg htypes, except_pure_bind] at h
    rcases htail : extractExportEntries rest ty decl conds with e | tail
    · simp [htail, except_bind_error, except_map_error] at h
    · simp [htail, except_bind_ok, except_map_ok] at h
      subst h
      intro d hd
      rcases List.mem_cons.1 hd with rfl | hd₁
      · rfl
      · exact ih _ htail d hd₁
  · -- object entries: recurse into a nested object or array
    intro ty decl conds condition rest hjson htypes pe hpe ihrest ihpe ds h
    rw [extractExportEntries] at h
    simp only [if_neg hjson, if_neg htypes] at h
    cases pe with
    | str f => exact (hpe f rfl).elim
    | arr its =>
      rcases hhead : extractExportFilenames (.arr its) ty decl (conds ++ [condition]) with e | head
      · simp [hhead, except_bind_error, except_map_error] at h
      · rcases htail : extractExportEntries rest ty decl conds with e | tail
        · simp [hhead, htail, except_bind_ok, except_bind_error, except_map_error] at h
        · simp [hhead, htail, except_bind_ok, except_map_ok] at h
          subst h
          intro d hd
          rcases List.mem_append.1 hd with hd₁ | hd₁
          · exact ihpe _ hhead d hd₁
          · exact ihrest _ htail d hd₁
    | obj es₂ =>
      rcases hhead : extractExportFilenames (.obj es₂) ty decl (conds ++ [condition]) with e | head
      · simp [hhead, except_bind_error, except_map_error] at h
      · rcases htail : extractExportEntries rest ty decl conds with e | tail
        · simp [hhead, htail, except_bind_ok, except_bind_error, except_map_error] at h
        · simp [hhead, htail, except_bind_ok, except_map_ok] at h
          subst h
          intro d hd
          rcases List.mem_append.1 hd with hd₁ | hd₁
          · exact ihpe _ hhead d hd₁
          · exact ihrest _ htail d hd₁

/-- Witness for C9 at a dual-condition manifest. -/
theorem descriptor_key_always_exports_witness :
    extractExportFilenames (.obj [(".", .obj [("import", .str "./dist/index.mjs"), ("require", .str "./dist/index.cjs")])]) (some "commonjs") .on []
      = .ok [{ file := "./dist/index.mjs", key := .exports, subKey := some "import", type := some .esm },
             { file := "./dist/index.cjs", key := .exports, subKey := some "require", type := some .cjs }]
    ∧ ∀ d ∈ [({ file := "./dist/index.mjs", key := .exports, subKey := some "import", type := some .esm } : OutputDescriptor),
             { file := "./dist/index.cjs", key := .exports, subKey := some "require", type := some .cjs }],
        d.key = DescriptorKey.exports :=
  ⟨by decide,
    descriptor_key_always_exports
      (.obj [(".", .obj [("import", .str "./dist/index.mjs"), ("require", .str "./dist/index.cjs")])])
      (some "commonjs") .on []
      [{ file := "./dist/index.mjs", key := .exports, subKey := some "import", type := some .esm },
       { file := "./dist/index.cjs", key := .exports, subKey := some "require", type := some .cjs }]
      (by decide)⟩

end Packem
